import Mathlib

/-!
Verification of the stage-worker server in `LlamaTransformerServer.py`
(`LlamaTransformerSplitServer`): the length-prefixed frame codec, the
per-request stage executor (`handle_client`'s body), the per-connection
error containment, the serial accept loop and the listener supervisor.

Bytes are modelled as `Nat` (in the running program each byte is < 256;
none of the properties below depend on that bound).  A connection's
receive direction is a byte list: `recv conn k` returns the next
`min k conn.length` bytes, modelling `socket.recv(k)` on a socket whose
data has arrived; an exhausted list models a closed connection, for
which `recv` returns the empty byte string, exactly as `socket.recv`
does.  Network sends are modelled as buffered: `sendall` either delivers
the whole buffer or raises, so the bytes a handler sends are the value
it computed.
-/

namespace LlamaSplit

/-- Torch dtypes that occur in the program: tensors arrive as `float32`
(or anything else) and `.half()` casts to `float16`. -/
inductive DType where
  | float32
  | float16
deriving DecidableEq

/-- Torch devices that occur in the program. -/
inductive Device where
  | cpu
  | cuda
deriving DecidableEq

/-- A tensor, kept opaque except for the two attributes the server code
manipulates: the device it lives on and its dtype.  `data` is the
payload, never touched by the server. -/
structure Tensor where
  data : List Int
  device : Device
  dtype : DType
deriving DecidableEq

/-- `tensor.to(device)`: moves the tensor, payload unchanged. -/
def Tensor.to (t : Tensor) (device : Device) : Tensor :=
  { t with device := device }

/-- `tensor.half()`: casts to float16, payload retained. -/
def Tensor.half (t : Tensor) : Tensor :=
  { t with dtype := DType.float16 }

/-- The 8-field request tuple unpacked from `pickle.loads(data)` at
line 69 of the source, in source order. -/
structure Request where
  hidden_states : Tensor
  causal_mask : Option Tensor
  position_ids : Tensor
  past_key_values : Tensor
  output_attentions : Bool
  use_cache : Bool
  cache_position : Tensor
  position_embeddings : Option (List Tensor)
deriving DecidableEq

/-- The keyword arguments handed to one `decoder_layer(...)` call. -/
structure LayerInput where
  hidden_states : Tensor
  attention_mask : Option Tensor
  position_ids : Tensor
  past_key_value : Tensor
  output_attentions : Bool
  use_cache : Bool
  cache_position : Tensor
  position_embeddings : List Tensor

/-- One decoder layer: an opaque compute step returning the
`layer_outputs` tuple, or raising (any torch failure). -/
def Layer : Type :=
  LayerInput → Except Unit (List Tensor)

/-- The `output` triple built at line 106:
`(hidden_states, next_decoder_cache, past_key_values)`. -/
def Output : Type :=
  Tensor × Tensor × Tensor

/-- The exceptions the handler body can raise. -/
inductive Err where
  /-- `struct.error` from `struct.unpack`/`struct.pack`. -/
  | structError
  /-- `RuntimeError("socket connection broken")` (line 60). -/
  | connectionBroken
  /-- any failure of `pickle.loads`. -/
  | decodeError
  /-- reading a local variable that was never assigned
  (`output` / `next_decoder_cache`). -/
  | nameError
  /-- `layer_outputs[...]` out of range. -/
  | indexError
  /-- an exception raised inside a decoder layer. -/
  | computeError
deriving DecidableEq

/-- `socket.recv(k)` on a connection modelled as the list of bytes it
will deliver: returns up to `k` bytes and the remaining stream. -/
def recv (conn : List Nat) (k : Nat) : List Nat × List Nat :=
  (conn.take k, conn.drop k)

/-- `struct.unpack('>I', bs)[0]` for a 4-byte string: unsigned
big-endian.  (Only ever applied to length-4 lists.) -/
def unpack_be4 (bs : List Nat) : Nat :=
  match bs with
  | [b0, b1, b2, b3] => ((b0 * 256 + b1) * 256 + b2) * 256 + b3
  | _ => 0

/-- `struct.pack('>I', n)` for `n < 2^32`: the 4 big-endian bytes. -/
def pack_be4 (n : Nat) : List Nat :=
  [n / 16777216 % 256, n / 65536 % 256, n / 256 % 256, n % 256]

/-- Line 52: `data_size = struct.unpack('>I', client_socket.recv(4))[0]`.
`struct.unpack` raises unless `recv` yielded exactly 4 bytes. -/
def readHeader (conn : List Nat) : Except Err (Nat × List Nat) :=
  let r := recv conn 4
  if r.1.length = 4 then Except.ok (unpack_be4 r.1, r.2) else Except.error Err.structError

/-- Lines 55-62: the accumulation loop.  `rem` is
`data_size - bytes_recd`; each pass reads `min rem 2048` bytes, raises
`RuntimeError` on an empty chunk, and recurses on what is left.
Returns the list of chunks read and the unread remainder of the
stream. -/
def readChunks (conn : List Nat) (rem : Nat) : Except Err (List (List Nat) × List Nat) :=
  if h : rem = 0 then
    Except.ok ([], conn)
  else
    if hc : ((recv conn (min rem 2048)).1).length = 0 then
      Except.error Err.connectionBroken
    else
      match readChunks (recv conn (min rem 2048)).2 (rem - ((recv conn (min rem 2048)).1).length) with
      | Except.ok (cs, rest) => Except.ok ((recv conn (min rem 2048)).1 :: cs, rest)
      | Except.error e => Except.error e
termination_by rem
decreasing_by
  omega

/-- Lines 52-63: read the length header, then the payload
(`data = b''.join(chunks)`).  Returns the payload and the unread
remainder of the stream. -/
def readFrame (conn : List Nat) : Except Err (List Nat × List Nat) :=
  match readHeader conn with
  | Except.error e => Except.error e
  | Except.ok (data_size, rest) =>
    match readChunks rest data_size with
    | Except.error e => Except.error e
    | Except.ok (chunks, rest2) => Except.ok (chunks.flatten, rest2)

/-- Lines 112-114: `struct.pack('>I', result_size)` followed by the
payload; `struct.pack('>I', ...)` raises for sizes at or above 2^32. -/
def writeFrame (result : List Nat) : Except Err (List Nat) :=
  if result.length < 4294967296 then Except.ok (pack_be4 result.length ++ result)
  else Except.error Err.structError

/-- Lines 86-103: the layer loop.  `next_decoder_cache` is an `Option`
because a Python local starts out unassigned (`none`); it becomes
`some c` when line 103 runs.  Each pass calls the layer with the
(already transferred) request fields, takes `layer_outputs[0]` as the
new `hidden_states` (IndexError if absent), and when `use_cache` is
truthy takes `layer_outputs[2 if output_attentions else 1]` as the new
`next_decoder_cache`. -/
def runLayers (layers : List Layer) (hidden_states : Tensor) (causal_mask : Option Tensor)
    (position_ids : Tensor) (past_key_values : Tensor) (output_attentions : Bool)
    (use_cache : Bool) (cache_position : Tensor) (position_embeddings : List Tensor)
    (next_decoder_cache : Option Tensor) : Except Err (Tensor × Option Tensor) :=
  match layers with
  | [] => Except.ok (hidden_states, next_decoder_cache)
  | decoder_layer :: rest =>
    match decoder_layer
        { hidden_states := hidden_states, attention_mask := causal_mask,
          position_ids := position_ids, past_key_value := past_key_values,
          output_attentions := output_attentions, use_cache := use_cache,
          cache_position := cache_position, position_embeddings := position_embeddings } with
    | Except.error _ => Except.error Err.computeError
    | Except.ok layer_outputs =>
      match layer_outputs[0]? with
      | none => Except.error Err.indexError
      | some hs =>
        if use_cache then
          match layer_outputs[if output_attentions then 2 else 1]? with
          | none => Except.error Err.indexError
          | some c =>
            runLayers rest hs causal_mask position_ids past_key_values output_attentions
              use_cache cache_position position_embeddings (some c)
        else
          runLayers rest hs causal_mask position_ids past_key_values output_attentions
            use_cache cache_position position_embeddings next_decoder_cache

/-- Lines 77-78: `if causal_mask is not None: causal_mask =
causal_mask.to(self.device).half()`. -/
def transferMask (device : Device) : Option Tensor → Option Tensor
  | some m => some ((m.to device).half)
  | none => none

/-- Lines 68-111: the stage executor, from the unpacked `input_data`
to the `output` triple handed to `pickle.dumps`.  All tensor fields are
transferred with `.to(device).half()` (lines 71-82); the layer loop and
the assignment of `output` sit inside `if position_embeddings is not
None:` (line 80), so when `position_embeddings` is absent nothing runs
and the later read of the local `output` raises `NameError`; likewise
line 106 reads `next_decoder_cache`, which raises `NameError` when
no iteration with truthy `use_cache` assigned it. -/
def execute (device : Device) (layers : List Layer) (input_data : Request) :
    Except Err Output :=
  let hidden_states := (input_data.hidden_states.to device).half
  let position_ids := (input_data.position_ids.to device).half
  let past_key_values := (input_data.past_key_values.to device).half
  let cache_position := (input_data.cache_position.to device).half
  let causal_mask := transferMask device input_data.causal_mask
  match input_data.position_embeddings with
  | none => Except.error Err.nameError
  | some pe =>
    let position_embeddings := pe.map fun t => (t.to device).half
    match runLayers layers hidden_states causal_mask position_ids past_key_values
        input_data.output_attentions input_data.use_cache cache_position
        position_embeddings none with
    | Except.error e => Except.error e
    | Except.ok (hs, next_decoder_cache) =>
      match next_decoder_cache with
      | none => Except.error Err.nameError
      | some c => Except.ok (hs, c, past_key_values)

/-- The body of the `try:` block of `handle_client` (lines 50-114):
read a frame, `pickle.loads` it, run the executor, `pickle.dumps` the
output and frame it.  `loads` and `dumps` stand for the opaque pickle
codec.  The returned byte list is everything `sendall` delivered. -/
def handleBody (device : Device) (layers : List Layer)
    (loads : List Nat → Except Err Request) (dumps : Output → List Nat)
    (conn : List Nat) : Except Err (List Nat) :=
  match readHeader conn with
  | Except.error e => Except.error e
  | Except.ok (data_size, rest) =>
    match readChunks rest data_size with
    | Except.error e => Except.error e
    | Except.ok (chunks, _) =>
      match loads chunks.flatten with
      | Except.error e => Except.error e
      | Except.ok input_data =>
        match execute device layers input_data with
        | Except.error e => Except.error e
        | Except.ok output => writeFrame (dumps output)

/-- What one connection observably ends in: the bytes that were sent
back, and whether the socket was closed. -/
structure HandleResult where
  sent : List Nat
  closed : Bool
deriving DecidableEq

/-- Lines 48-120: `handle_client` with its `try/except/finally`.  A
raised exception is caught and logged (`except`, line 116) so nothing
is sent; the `finally` (line 119) closes the socket on both paths. -/
def handle_client (device : Device) (layers : List Layer)
    (loads : List Nat → Except Err Request) (dumps : Output → List Nat)
    (conn : List Nat) : HandleResult :=
  match handleBody device layers loads dumps conn with
  | Except.ok sent => { sent := sent, closed := true }
  | Except.error _ => { sent := [], closed := true }

/-- Observable events of the inner accept loop (lines 131-134),
instrumenting connection `i`'s acceptance, the start of its handler
call and the handler's return. -/
inductive Ev where
  | accept (i : Nat)
  | hstart (i : Nat)
  | hend (i : Nat)
deriving DecidableEq

/-- Lines 131-134: the serial accept loop over the pending connections.
Each iteration accepts one connection, then calls `handle_client` on it
synchronously — the recursive call (the next `accept()`) happens only
after `handle_client` has returned.  Returns the event trace and the
per-connection results. -/
def acceptLoop (device : Device) (layers : List Layer)
    (loads : List Nat → Except Err Request) (dumps : Output → List Nat) :
    Nat → List (List Nat) → List Ev × List HandleResult
  | _, [] => ([], [])
  | i, conn :: pending =>
    let r := handle_client device layers loads dumps conn
    let t := acceptLoop device layers loads dumps (i + 1) pending
    (Ev.accept i :: Ev.hstart i :: Ev.hend i :: t.1, r :: t.2)

/-- The event the serial trace holds at offset `m` when numbering
starts at connection `i`. -/
def evAt (i m : Nat) : Ev :=
  if m % 3 = 0 then Ev.accept (i + m / 3)
  else if m % 3 = 1 then Ev.hstart (i + m / 3)
  else Ev.hend (i + m / 3)

/-- What one iteration of the outer `while True:` (lines 123-139)
ran into: `bind()`/`listen()` raised, or they succeeded and the accept
loop handled `conns` connections before `accept()` itself raised.
(These are the only ways the iteration ends, since the inner loop is
infinite and per-connection errors are swallowed by `handle_client`.) -/
inductive IterOutcome where
  | bindFail
  | acceptFail (conns : List (List Nat))

/-- Observable events of the listener supervisor. -/
inductive SEv where
  | bindAttempt
  | listening
  | handledConns (n : Nat)
  | errorLogged
  | restarted
  | terminated
deriving DecidableEq

/-- Lines 122-139: the supervisor.  Each outer iteration attempts
bind/listen; on success it serves connections via `handle_client` until
`accept()` raises; any exception is caught at line 136, logged with its
traceback, and the loop immediately re-enters the next iteration — no
sleep, no backoff, and no path that emits `terminated`. -/
def start_server (device : Device) (layers : List Layer)
    (loads : List Nat → Except Err Request) (dumps : Output → List Nat) :
    List IterOutcome → List SEv
  | [] => []
  | IterOutcome.bindFail :: rest =>
    SEv.bindAttempt :: SEv.errorLogged :: SEv.restarted ::
      start_server device layers loads dumps rest
  | IterOutcome.acceptFail conns :: rest =>
    SEv.bindAttempt :: SEv.listening ::
      SEv.handledConns (conns.map (handle_client device layers loads dumps)).length ::
        SEv.errorLogged :: SEv.restarted ::
          start_server device layers loads dumps rest

/-- Packing a length below 2^32 as 4 big-endian bytes and unpacking it
recovers the length. -/
theorem unpack_pack_be4 (n : Nat) (h : n < 4294967296) :
    unpack_be4 (pack_be4 n) = n := by
  simp only [pack_be4, unpack_be4]
  omega

/-- With `rem = 0` the accumulation loop does not run. -/
theorem readChunks_zero (conn : List Nat) : readChunks conn 0 = Except.ok ([], conn) := by
  unfold readChunks
  simp

/-- Soundness of the accumulation loop: a successful run returned
exactly the first `rem` bytes of the stream (split into the chunks that
were read, each of at most 2048 bytes), consumed exactly `rem` bytes,
and can only have happened when the stream held at least `rem` bytes. -/
theorem readChunks_ok :
    ∀ (rem : Nat) (conn : List Nat) (cs : List (List Nat)) (rest : List Nat),
      readChunks conn rem = Except.ok (cs, rest) →
      cs.flatten = conn.take rem ∧ rest = conn.drop rem ∧ rem ≤ conn.length ∧
        ∀ c ∈ cs, c.length ≤ 2048 := by
  intro rem
  induction rem using Nat.strong_induction_on with
  | _ rem ih =>
    intro conn cs rest h
    by_cases h0 : rem = 0
    · subst h0
      rw [readChunks_zero] at h
      simp only [Except.ok.injEq, Prod.mk.injEq] at h
      obtain ⟨rfl, rfl⟩ := h
      simp
    · unfold readChunks at h
      rw [dif_neg h0] at h
      simp only [recv, List.length_take] at h
      by_cases hc : min (min rem 2048) conn.length = 0
      · rw [dif_pos hc] at h
        cases h
      · rw [dif_neg hc] at h
        cases hrec : readChunks (conn.drop (min rem 2048))
            (rem - min (min rem 2048) conn.length) with
        | error e => rw [hrec] at h; cases h
        | ok p =>
          obtain ⟨cs2, rest2⟩ := p
          rw [hrec] at h
          simp only [Except.ok.injEq, Prod.mk.injEq] at h
          obtain ⟨rfl, rfl⟩ := h
          have hlt : rem - min (min rem 2048) conn.length < rem := by omega
          obtain ⟨hflat, hrest, hle, hbound⟩ := ih _ hlt _ _ _ hrec
          have hk : min rem 2048 ≤ conn.length := by
            simp only [List.length_drop] at hle
            omega
          have hmm : min (min rem 2048) conn.length = min rem 2048 := by omega
          rw [hmm] at hflat hrest
          refine ⟨?_, ?_, ?_, ?_⟩
          · simp only [List.flatten_cons, hflat]
            rw [← List.take_add]
            congr 1
            omega
          · rw [hrest, List.drop_drop]
            congr 1
            omega
          · simp only [List.length_drop] at hle
            omega
          · intro c hc2
            simp only [List.mem_cons] at hc2
            rcases hc2 with rfl | hc2
            · simp only [List.length_take]
              omega
            · exact hbound c hc2

/-- Completeness of the accumulation loop: when the stream holds at
least `rem` bytes the loop succeeds and leaves exactly the bytes past
the first `rem`. -/
theorem readChunks_complete :
    ∀ (rem : Nat) (conn : List Nat), rem ≤ conn.length →
      ∃ cs, readChunks conn rem = Except.ok (cs, conn.drop rem) := by
  intro rem
  induction rem using Nat.strong_induction_on with
  | _ rem ih =>
    intro conn hlen
    by_cases h0 : rem = 0
    · subst h0
      exact ⟨[], by rw [readChunks_zero]; simp⟩
    · have hk : min rem 2048 ≤ conn.length := by omega
      have hlt : rem - min rem 2048 < rem := by omega
      obtain ⟨cs2, hrec⟩ := ih _ hlt (conn.drop (min rem 2048)) (by simp only [List.length_drop]; omega)
      refine ⟨conn.take (min rem 2048) :: cs2, ?_⟩
      unfold readChunks
      rw [dif_neg h0]
      simp only [recv, List.length_take]
      rw [dif_neg (by omega : ¬ min (min rem 2048) conn.length = 0)]
      have hmm : min (min rem 2048) conn.length = min rem 2048 := by omega
      have hsum : min rem 2048 + (rem - min rem 2048) = rem := by omega
      rw [hmm, hrec, List.drop_drop, hsum]

/-- Truncation: when the stream holds fewer than `rem` bytes the loop
eventually receives an empty chunk and raises
`RuntimeError("socket connection broken")`. -/
theorem readChunks_short :
    ∀ (rem : Nat) (conn : List Nat), conn.length < rem →
      readChunks conn rem = Except.error Err.connectionBroken := by
  intro rem
  induction rem using Nat.strong_induction_on with
  | _ rem ih =>
    intro conn hlen
    have h0 : ¬ rem = 0 := by omega
    unfold readChunks
    rw [dif_neg h0]
    simp only [recv, List.length_take]
    by_cases hc : min (min rem 2048) conn.length = 0
    · rw [dif_pos hc]
    · rw [dif_neg hc]
      have hlt : rem - min (min rem 2048) conn.length < rem := by omega
      have hrec := ih _ hlt (conn.drop (min rem 2048)) (by simp only [List.length_drop]; omega)
      rw [hrec]

/-- A stream opening with 4 explicit bytes always yields a header:
the big-endian value of those 4 bytes, and the remaining stream. -/
theorem readHeader_cons (b0 b1 b2 b3 : Nat) (rest : List Nat) :
    readHeader (b0 :: b1 :: b2 :: b3 :: rest) =
      Except.ok (unpack_be4 [b0, b1, b2, b3], rest) := rfl

/-- `readFrame` on a stream whose header and payload both parse. -/
theorem readFrame_eq_ok (conn : List Nat) (n : Nat) (rest : List Nat)
    (cs : List (List Nat)) (rest2 : List Nat)
    (h1 : readHeader conn = Except.ok (n, rest))
    (h2 : readChunks rest n = Except.ok (cs, rest2)) :
    readFrame conn = Except.ok (cs.flatten, rest2) := by
  unfold readFrame
  rw [h1]
  simp only [h2]

/-- `readFrame` on a stream whose header parses but whose payload
loop raises. -/
theorem readFrame_eq_error (conn : List Nat) (n : Nat) (rest : List Nat) (e : Err)
    (h1 : readHeader conn = Except.ok (n, rest))
    (h2 : readChunks rest n = Except.error e) :
    readFrame conn = Except.error e := by
  unfold readFrame
  rw [h1]
  simp only [h2]

/-- A frame that fits in a single `recv` (length 1..2048, fully
buffered) is read in one pass. -/
theorem readChunks_small (conn : List Nat) (rem : Nat) (h1 : 1 ≤ rem) (h2 : rem ≤ 2048)
    (h3 : rem ≤ conn.length) :
    readChunks conn rem = Except.ok ([conn.take rem], conn.drop rem) := by
  unfold readChunks
  rw [dif_neg (by omega)]
  simp only [recv, List.length_take]
  rw [dif_neg (by omega)]
  have hmm : min (min rem 2048) conn.length = rem := by omega
  have hmin : min rem 2048 = rem := by omega
  rw [hmm, hmin, Nat.sub_self, readChunks_zero]

/-- Claim C3: for every byte sequence `b` of length 0..65536, decoding
with `readFrame` the bytes produced by `writeFrame b` (a 4-byte
unsigned big-endian length header equal to `b.length` followed by `b`)
reconstructs `b` exactly (and consumes the whole stream). -/
theorem frame_roundtrip (b : List Nat) (h : b.length ≤ 65536) :
    ∃ w, writeFrame b = Except.ok w ∧ readFrame w = Except.ok (b, []) := by
  refine ⟨pack_be4 b.length ++ b, ?_, ?_⟩
  · unfold writeFrame
    rw [if_pos (by omega)]
  · have hhdr : readHeader (pack_be4 b.length ++ b) =
        Except.ok (unpack_be4 (pack_be4 b.length), b) := readHeader_cons _ _ _ _ b
    rw [unpack_pack_be4 b.length (by omega)] at hhdr
    obtain ⟨cs, hcs⟩ := readChunks_complete b.length b (Nat.le_refl _)
    obtain ⟨hflat, -, -, -⟩ := readChunks_ok _ _ _ _ hcs
    rw [List.take_length] at hflat
    rw [List.drop_length] at hcs
    rw [readFrame_eq_ok _ _ _ _ _ hhdr hcs, hflat]

/-- Witness for C3 at the concrete payload `[5, 6, 7]`. -/
theorem frame_roundtrip_witness :
    ∃ w, writeFrame [5, 6, 7] = Except.ok w ∧
      readFrame w = Except.ok ([5, 6, 7], []) :=
  frame_roundtrip [5, 6, 7] (by decide)

/-- Claim C4: a connection that delivers a length header announcing `n`
bytes but closes (yields no further bytes) before `n` payload bytes
have been accumulated makes `readFrame` fail with the truncation error
`RuntimeError("socket connection broken")`; it never returns a short
payload. -/
theorem truncation_detected (conn : List Nat) (n : Nat) (rest : List Nat)
    (hhdr : readHeader conn = Except.ok (n, rest)) (hshort : rest.length < n) :
    readFrame conn = Except.error Err.connectionBroken :=
  readFrame_eq_error conn n rest Err.connectionBroken hhdr
    (readChunks_short n rest hshort)

/-- Witness for C4: header declares 5 bytes, the stream ends after 2. -/
theorem truncation_detected_witness :
    readFrame [0, 0, 0, 5, 1, 2] = Except.error Err.connectionBroken :=
  truncation_detected [0, 0, 0, 5, 1, 2] 5 [1, 2] rfl (by decide)

/-- Claim C7: on every successfully framed read, the header read
consumed exactly 4 bytes interpreted as an unsigned 32-bit big-endian
length `n`, and the payload loop accumulated exactly `n` bytes in
chunks of at most 2048 bytes per `recv`. -/
theorem readFrame_exact (conn : List Nat) (n : Nat) (rest : List Nat)
    (cs : List (List Nat)) (rest2 : List Nat)
    (hhdr : readHeader conn = Except.ok (n, rest))
    (hchunks : readChunks rest n = Except.ok (cs, rest2)) :
    4 ≤ conn.length ∧ n = unpack_be4 (conn.take 4) ∧ rest = conn.drop 4 ∧
      cs.flatten = rest.take n ∧ cs.flatten.length = n ∧ rest2 = rest.drop n ∧
      ∀ c ∈ cs, c.length ≤ 2048 := by
  obtain ⟨hflat, hrest, hle, hbound⟩ := readChunks_ok n rest cs rest2 hchunks
  unfold readHeader at hhdr
  simp only [recv] at hhdr
  by_cases h4 : (conn.take 4).length = 4
  · rw [if_pos h4] at hhdr
    simp only [Except.ok.injEq, Prod.mk.injEq] at hhdr
    obtain ⟨rfl, rfl⟩ := hhdr
    refine ⟨?_, rfl, rfl, hflat, ?_, hrest, hbound⟩
    · simp only [List.length_take] at h4
      omega
    · rw [hflat]
      simp only [List.length_take]
      omega
  · rw [if_neg h4] at hhdr
    cases hhdr

/-- Witness for C7: an 8-byte stream framing the 3-byte payload
`[9, 9, 9]`. -/
theorem readFrame_exact_witness :
    4 ≤ ([0, 0, 0, 3, 9, 9, 9, 42] : List Nat).length ∧
      3 = unpack_be4 (([0, 0, 0, 3, 9, 9, 9, 42] : List Nat).take 4) ∧
      ([9, 9, 9, 42] : List Nat) = ([0, 0, 0, 3, 9, 9, 9, 42] : List Nat).drop 4 ∧
      ([[9, 9, 9]] : List (List Nat)).flatten = ([9, 9, 9, 42] : List Nat).take 3 ∧
      ([[9, 9, 9]] : List (List Nat)).flatten.length = 3 ∧
      ([42] : List Nat) = ([9, 9, 9, 42] : List Nat).drop 3 ∧
      ∀ c ∈ ([[9, 9, 9]] : List (List Nat)), c.length ≤ 2048 :=
  readFrame_exact [0, 0, 0, 3, 9, 9, 9, 42] 3 [9, 9, 9, 42] [[9, 9, 9]] [42] rfl
    (readChunks_small [9, 9, 9, 42] 3 (by decide) (by decide) (by decide))

/-- Claim C10: a declared length of 0 is a valid frame, not a
truncation error: the payload loop performs zero read passes (the chunk
list is empty) and `readFrame` yields the empty byte string for the
decoder, whatever else the stream holds. -/
theorem zero_length_frame (rest : List Nat) :
    readChunks rest 0 = Except.ok ([], rest) ∧
      readFrame (0 :: 0 :: 0 :: 0 :: rest) = Except.ok ([], rest) := by
  refine ⟨readChunks_zero rest, ?_⟩
  have hhdr : readHeader (0 :: 0 :: 0 :: 0 :: rest) = Except.ok (0, rest) := rfl
  exact readFrame_eq_ok _ 0 rest [] rest hhdr (readChunks_zero rest)

/-- A concrete float32 CPU tensor, as a client would produce. -/
def t32 : Tensor :=
  { data := [1, 2], device := Device.cpu, dtype := DType.float32 }

/-- A concrete well-behaved decoder layer: `layer_outputs[0]` is the
new hidden state, `layer_outputs[1]` the returned cache entry. -/
def layer0 : Layer :=
  fun inp => Except.ok [inp.hidden_states, inp.past_key_value]

/-- A concrete `pickle.loads` stand-in that always fails. -/
def loads0 : List Nat → Except Err Request :=
  fun _ => Except.error Err.decodeError

/-- A concrete `pickle.dumps` stand-in. -/
def dumps0 : Output → List Nat :=
  fun _ => []

/-- A concrete well-formed request: `position_embeddings` present,
`use_cache` set. -/
def sampleReq : Request :=
  { hidden_states := t32, causal_mask := none, position_ids := t32,
    past_key_values := t32, output_attentions := false, use_cache := true,
    cache_position := t32, position_embeddings := some [t32, t32] }

/-- `sampleReq` with `position_embeddings` explicitly absent. -/
def sampleReqNoPE : Request :=
  { sampleReq with position_embeddings := none }

/-- `sampleReq` with `use_cache` unset. -/
def sampleReqNoCache : Request :=
  { sampleReq with use_cache := false }

/-- Whether an executor run raised. -/
def isErr {α : Type} (r : Except Err α) : Bool :=
  match r with
  | Except.error _ => true
  | Except.ok _ => false

/-- The `past_key_values` slot of a successful response, `none` when
the request failed. -/
def respPkv (r : Except Err Output) : Option Tensor :=
  match r with
  | Except.ok o => some o.2.2
  | Except.error _ => none

/-- Branch equation of `execute` for an absent
`position_embeddings`. -/
theorem execute_pe_none (device : Device) (layers : List Layer)
    (req : Request) (h : req.position_embeddings = none) :
    execute device layers req = Except.error Err.nameError := by
  unfold execute
  rw [h]

/-- Branch equation of `execute` for a present `position_embeddings`:
the layer loop runs on the transferred fields, then line 106 reads
`next_decoder_cache`. -/
theorem execute_pe_some (device : Device) (layers : List Layer) (req : Request)
    (pe : List Tensor) (h : req.position_embeddings = some pe) :
    execute device layers req =
      match runLayers layers ((req.hidden_states.to device).half)
          (transferMask device req.causal_mask)
          ((req.position_ids.to device).half) ((req.past_key_values.to device).half)
          req.output_attentions req.use_cache ((req.cache_position.to device).half)
          (pe.map fun t => (t.to device).half) none with
      | Except.error e => Except.error e
      | Except.ok (hs, next_decoder_cache) =>
        match next_decoder_cache with
        | none => Except.error Err.nameError
        | some c => Except.ok (hs, c, (req.past_key_values.to device).half) := by
  unfold execute
  rw [h]

/-- Claim C1: the code violates the claimed contract.  For every
request whose `position_embeddings` field is explicitly absent, the
layer loop is skipped, the local `output` is never assigned, and the
executor raises `NameError` — neither a valid computed response nor an
explicit `MissingRequiredFieldError` (the blanket `except` then drops
the connection with no reply; only the process itself survives). -/
theorem execute_position_embeddings_absent (device : Device) (layers : List Layer)
    (req : Request) (h : req.position_embeddings = none) :
    execute device layers req = Except.error Err.nameError :=
  execute_pe_none device layers req h

/-- Witness for C1 at a concrete request lacking
`position_embeddings`. -/
theorem execute_position_embeddings_absent_witness :
    execute Device.cuda [layer0] sampleReqNoPE = Except.error Err.nameError :=
  execute_position_embeddings_absent Device.cuda [layer0] sampleReqNoPE rfl

/-- When `use_cache` is falsy no iteration of the layer loop assigns
`next_decoder_cache`, so the loop returns the accumulator it was
started with. -/
theorem runLayers_no_cache (layers : List Layer) (hs : Tensor) (cm : Option Tensor)
    (ids : Tensor) (pkv : Tensor) (oa : Bool) (cp : Tensor) (pe : List Tensor)
    (acc : Option Tensor) (hs2 : Tensor) (n2 : Option Tensor)
    (h : runLayers layers hs cm ids pkv oa false cp pe acc = Except.ok (hs2, n2)) :
    n2 = acc := by
  induction layers generalizing hs acc with
  | nil =>
    unfold runLayers at h
    simp only [Except.ok.injEq, Prod.mk.injEq] at h
    exact h.2.symm
  | cons l rest ih =>
    unfold runLayers at h
    split at h
    · cases h
    · split at h
      · cases h
      · simp only [Bool.false_eq_true, if_false] at h
        exact ih _ _ h

/-- Claim C2: the code violates the claimed contract for `use_cache`
unset.  A request with `position_embeddings` present and `use_cache`
falsy can never be handled successfully: `next_decoder_cache` is never
initialised before the loop, so line 106 raises `UnboundLocalError`
instead of producing a response carrying an absent marker (when
`use_cache` is set the response does carry the final layer's cache
entry, but the "absent marker" half of the contract is unreachable). -/
theorem execute_use_cache_false_fails (device : Device) (layers : List Layer)
    (req : Request) (pe : List Tensor)
    (hpe : req.position_embeddings = some pe) (huc : req.use_cache = false) :
    isErr (execute device layers req) = true := by
  rw [execute_pe_some device layers req pe hpe, huc]
  split
  · rfl
  · rename_i hs2 ndc heq
    cases ndc with
    | none => rfl
    | some c => exact absurd (runLayers_no_cache _ _ _ _ _ _ _ _ _ _ _ heq) (by simp)

/-- Witness for C2 at a concrete request with `use_cache` unset. -/
theorem execute_use_cache_false_fails_witness :
    isErr (execute Device.cuda [layer0] sampleReqNoCache) = true :=
  execute_use_cache_false_fails Device.cuda [layer0] sampleReqNoCache [t32, t32]
    rfl rfl

/-- Claim C5 counterexample: at a concrete request carrying a float32
CPU `past_key_values`, the request succeeds and the response's
`past_key_values` slot is the tensor moved to the worker's device and
cast to half precision — not identical by value to the request's
input. -/
theorem past_key_values_not_identical :
    respPkv (execute Device.cuda [layer0] sampleReq) =
        some { data := [1, 2], device := Device.cuda, dtype := DType.float16 } ∧
      some sampleReq.past_key_values ≠
        some { data := [1, 2], device := Device.cuda, dtype := DType.float16 } :=
  ⟨rfl, by decide⟩

/-- Claim C5 (amended): for every successfully handled request, the
response's `past_key_values` slot equals the request's
`past_key_values` after the per-request transfer
`.to(device).half()` (line 74) — the data payload is passed through
unchanged and the worker performs no other modification. -/
theorem past_key_values_transferred (device : Device) (layers : List Layer)
    (req : Request) (out : Output) (h : execute device layers req = Except.ok out) :
    out.2.2 = (req.past_key_values.to device).half := by
  cases hpe : req.position_embeddings with
  | none =>
    rw [execute_pe_none device layers req hpe] at h
    cases h
  | some pe =>
    rw [execute_pe_some device layers req pe hpe] at h
    split at h
    · cases h
    · split at h
      · cases h
      · cases h
        rfl

/-- Witness for C5's amended statement at a concrete successful
request. -/
theorem past_key_values_transferred_witness :
    (({ data := [1, 2], device := Device.cuda, dtype := DType.float16 },
        { data := [1, 2], device := Device.cuda, dtype := DType.float16 },
        ({ data := [1, 2], device := Device.cuda, dtype := DType.float16 } : Tensor)) :
          Output).2.2 =
      (sampleReq.past_key_values.to Device.cuda).half :=
  past_key_values_transferred Device.cuda [layer0] sampleReq _ rfl

/-- The accept loop yields one handler result per accepted connection:
no connection's failure aborts the loop. -/
theorem acceptLoop_len (device : Device) (layers : List Layer)
    (loads : List Nat → Except Err Request) (dumps : Output → List Nat) :
    ∀ (i : Nat) (conns : List (List Nat)),
      ((acceptLoop device layers loads dumps i conns).2).length = conns.length := by
  intro i conns
  induction conns generalizing i with
  | nil => rfl
  | cons c cs ih => simp [acceptLoop, ih]

/-- Claim C6: every exception raised while handling a connection —
whatever the stream, the pickle codec and the layers do — is caught
inside `handle_client`: the handler always returns (nothing propagates
to the accept loop, which produces a result for every connection), a
failed request sends no bytes at all, and the socket is closed on every
exit path, success or failure. -/
theorem handler_contains_errors (device : Device) (layers : List Layer)
    (loads : List Nat → Except Err Request) (dumps : Output → List Nat)
    (conn : List Nat) :
    (handle_client device layers loads dumps conn).closed = true ∧
      (∀ e, handleBody device layers loads dumps conn = Except.error e →
        (handle_client device layers loads dumps conn).sent = []) ∧
      ∀ conns, ((acceptLoop device layers loads dumps 0 conns).2).length =
        conns.length := by
  refine ⟨?_, ?_, ?_⟩
  · unfold handle_client
    split <;> rfl
  · intro e he
    unfold handle_client
    rw [he]
  · intro conns
    exact acceptLoop_len device layers loads dumps 0 conns

/-- Witness for C6: the empty stream makes the header read raise; the
handler still closes the socket and sends nothing. -/
theorem handler_contains_errors_witness :
    (handle_client Device.cuda [layer0] loads0 dumps0 []).closed = true ∧
      (handle_client Device.cuda [layer0] loads0 dumps0 []).sent = [] :=
  ⟨(handler_contains_errors Device.cuda [layer0] loads0 dumps0 []).1,
    (handler_contains_errors Device.cuda [layer0] loads0 dumps0 []).2.1
      Err.structError rfl⟩

/-- Closed form of the serial accept-loop trace: position `m` holds the
`m % 3`-th event of connection `i + m / 3`, and nothing else. -/
theorem acceptLoop_trace_get (device : Device) (layers : List Layer)
    (loads : List Nat → Except Err Request) (dumps : Output → List Nat) :
    ∀ (conns : List (List Nat)) (i m : Nat),
      ((acceptLoop device layers loads dumps i conns).1)[m]? =
        if m < 3 * conns.length then some (evAt i m) else none := by
  intro conns
  induction conns with
  | nil =>
    intro i m
    simp [acceptLoop]
  | cons c cs ih =>
    intro i m
    match m with
    | 0 =>
      simp only [acceptLoop, List.getElem?_cons_zero]
      rw [if_pos (by simp only [List.length_cons]; omega)]
      simp [evAt]
    | 1 =>
      simp only [acceptLoop, List.getElem?_cons_succ, List.getElem?_cons_zero]
      rw [if_pos (by simp only [List.length_cons]; omega)]
      simp [evAt]
    | 2 =>
      simp only [acceptLoop, List.getElem?_cons_succ, List.getElem?_cons_zero]
      rw [if_pos (by simp only [List.length_cons]; omega)]
      simp [evAt]
    | (n + 3) =>
      simp only [acceptLoop, List.getElem?_cons_succ]
      rw [ih (i + 1) n]
      by_cases hlt : n < 3 * cs.length
      · rw [if_pos hlt, if_pos (by simp only [List.length_cons]; omega)]
        have h3 : (n + 3) % 3 = n % 3 := by omega
        have h4 : (n + 3) / 3 = n / 3 + 1 := by omega
        unfold evAt
        rw [h3, h4]
        have h5 : i + 1 + n / 3 = i + (n / 3 + 1) := by omega
        rw [h5]
      · rw [if_neg hlt, if_neg (by simp only [List.length_cons]; omega)]

/-- Claim C8: the accept loop is serial and ordered — for any two
accepted connections `a` before `b`, connection `a`'s handler has
returned (its `hend` event) strictly before connection `b`'s handler
starts (its `hstart` event): every occurrence of `hend a` in the trace
precedes every occurrence of `hstart b`, and both events do occur. -/
theorem serial_handling (device : Device) (layers : List Layer)
    (loads : List Nat → Except Err Request) (dumps : Output → List Nat)
    (conns : List (List Nat)) (a b : Nat) (hab : a < b) (hb : b < conns.length) :
    ((acceptLoop device layers loads dumps 0 conns).1)[3 * a + 2]? =
        some (Ev.hend a) ∧
      ((acceptLoop device layers loads dumps 0 conns).1)[3 * b + 1]? =
        some (Ev.hstart b) ∧
      ∀ p q : Nat,
        ((acceptLoop device layers loads dumps 0 conns).1)[p]? = some (Ev.hend a) →
        ((acceptLoop device layers loads dumps 0 conns).1)[q]? =
          some (Ev.hstart b) → p < q := by
  refine ⟨?_, ?_, ?_⟩
  · rw [acceptLoop_trace_get device layers loads dumps conns 0 (3 * a + 2)]
    rw [if_pos (show 3 * a + 2 < 3 * conns.length by omega)]
    have h3 : (3 * a + 2) % 3 = 2 := by omega
    have h4 : (3 * a + 2) / 3 = a := by omega
    unfold evAt
    rw [h3, h4]
    norm_num
  · rw [acceptLoop_trace_get device layers loads dumps conns 0 (3 * b + 1)]
    rw [if_pos (show 3 * b + 1 < 3 * conns.length by omega)]
    have h3 : (3 * b + 1) % 3 = 1 := by omega
    have h4 : (3 * b + 1) / 3 = b := by omega
    unfold evAt
    rw [h3, h4]
    norm_num
  · intro p q hp hq
    rw [acceptLoop_trace_get device layers loads dumps conns 0 p] at hp
    rw [acceptLoop_trace_get device layers loads dumps conns 0 q] at hq
    by_cases hple : p < 3 * conns.length
    · by_cases hqle : q < 3 * conns.length
      · rw [if_pos hple] at hp
        rw [if_pos hqle] at hq
        have hp2 := Option.some.inj hp
        have hq2 := Option.some.inj hq
        unfold evAt at hp2 hq2
        split_ifs at hp2 hq2
        all_goals cases hp2
        all_goals cases hq2
        all_goals omega
      · rw [if_neg hqle] at hq
        cases hq
    · rw [if_neg hple] at hp
      cases hp

/-- Witness for C8 with three connections, `a = 0`, `b = 1`. -/
theorem serial_handling_witness :
    ((acceptLoop Device.cuda [layer0] loads0 dumps0 0 [[], [], []]).1)[2]? =
      some (Ev.hend 0) :=
  (serial_handling Device.cuda [layer0] loads0 dumps0 [[], [], []] 0 1 (by decide)
    (by decide)).1

/-- Whatever outcomes remain, the supervisor's next event (if any) is
a fresh bind attempt: every restart re-enters the full
bind → listen → accept sequence. -/
theorem start_server_head (device : Device) (layers : List Layer)
    (loads : List Nat → Except Err Request) (dumps : Output → List Nat)
    (outs : List IterOutcome) (e : SEv)
    (h : (start_server device layers loads dumps outs)[0]? = some e) :
    e = SEv.bindAttempt := by
  cases outs with
  | nil => cases h
  | cons o rest =>
    cases o with
    | bindFail => exact (Option.some.inj h).symm
    | acceptFail conns => exact (Option.some.inj h).symm

/-- The number of `restarted` events in a supervisor trace. -/
def countRestarts : List SEv → Nat
  | [] => 0
  | SEv.restarted :: t => countRestarts t + 1
  | _ :: t => countRestarts t

/-- Claim C9: the listener supervisor never terminates on a
listener-level error and retries without backoff: no trace contains a
`terminated` event, every logged error is immediately followed by a
restart (the very next event), the event after that — when the run is
observed further — is a fresh bind attempt, and every one of the
`outs.length` failing iterations ends in a restart. -/
theorem supervisor_restart (device : Device) (layers : List Layer)
    (loads : List Nat → Except Err Request) (dumps : Output → List Nat)
    (outs : List IterOutcome) (k : Nat) :
    SEv.terminated ∉ start_server device layers loads dumps outs ∧
      ((start_server device layers loads dumps outs)[k]? = some SEv.errorLogged →
        (start_server device layers loads dumps outs)[k + 1]? =
            some SEv.restarted ∧
          ∀ e, (start_server device layers loads dumps outs)[k + 2]? = some e →
            e = SEv.bindAttempt) ∧
      countRestarts (start_server device layers loads dumps outs) =
        outs.length := by
  induction outs generalizing k with
  | nil =>
    refine ⟨by simp [start_server], ?_, by simp [start_server, countRestarts]⟩
    intro hk
    simp [start_server] at hk
  | cons o rest ih =>
    cases o with
    | bindFail =>
      have hunf : start_server device layers loads dumps (IterOutcome.bindFail :: rest) =
          SEv.bindAttempt :: SEv.errorLogged :: SEv.restarted ::
            start_server device layers loads dumps rest := rfl
      refine ⟨?_, ?_, ?_⟩
      · have hnot := (ih 0).1
        rw [hunf]
        simp only [List.mem_cons]
        intro hmem
        rcases hmem with h | h | h | h
        · cases h
        · cases h
        · cases h
        · exact hnot h
      · intro hk
        rw [hunf] at hk
        match k, hk with
        | 0, hk =>
          simp only [List.getElem?_cons_zero] at hk
          cases Option.some.inj hk
        | 1, hk =>
          rw [hunf]
          refine ⟨by simp, ?_⟩
          intro e he
          simp only [List.getElem?_cons_succ] at he
          exact start_server_head device layers loads dumps rest e he
        | 2, hk =>
          simp only [List.getElem?_cons_succ, List.getElem?_cons_zero] at hk
          cases Option.some.inj hk
        | (k3 + 3), hk =>
          simp only [List.getElem?_cons_succ] at hk
          have h2 := (ih k3).2.1 hk
          rw [hunf]
          refine ⟨?_, ?_⟩
          · simp only [List.getElem?_cons_succ]
            exact h2.1
          · intro e he
            simp only [List.getElem?_cons_succ] at he
            exact h2.2 e he
      · rw [hunf]
        simp only [countRestarts]
        rw [(ih 0).2.2]
        simp
    | acceptFail conns =>
      have hunf : start_server device layers loads dumps
            (IterOutcome.acceptFail conns :: rest) =
          SEv.bindAttempt :: SEv.listening ::
            SEv.handledConns
              (conns.map (handle_client device layers loads dumps)).length ::
              SEv.errorLogged :: SEv.restarted ::
                start_server device layers loads dumps rest := rfl
      refine ⟨?_, ?_, ?_⟩
      · have hnot := (ih 0).1
        rw [hunf]
        simp only [List.mem_cons]
        intro hmem
        rcases hmem with h | h | h | h | h | h
        · cases h
        · cases h
        · cases h
        · cases h
        · cases h
        · exact hnot h
      · intro hk
        rw [hunf] at hk
        match k, hk with
        | 0, hk =>
          simp only [List.getElem?_cons_zero] at hk
          cases Option.some.inj hk
        | 1, hk =>
          simp only [List.getElem?_cons_succ, List.getElem?_cons_zero] at hk
          cases Option.some.inj hk
        | 2, hk =>
          simp only [List.getElem?_cons_succ, List.getElem?_cons_zero] at hk
          cases Option.some.inj hk
        | 3, hk =>
          rw [hunf]
          refine ⟨by simp, ?_⟩
          intro e he
          simp only [List.getElem?_cons_succ] at he
          exact start_server_head device layers loads dumps rest e he
        | 4, hk =>
          simp only [List.getElem?_cons_succ, List.getElem?_cons_zero] at hk
          cases Option.some.inj hk
        | (k5 + 5), hk =>
          simp only [List.getElem?_cons_succ] at hk
          have h2 := (ih k5).2.1 hk
          rw [hunf]
          refine ⟨?_, ?_⟩
          · simp only [List.getElem?_cons_succ]
            exact h2.1
          · intro e he
            simp only [List.getElem?_cons_succ] at he
            exact h2.2 e he
      · rw [hunf]
        simp only [countRestarts]
        rw [(ih 0).2.2]
        simp

/-- Witness for C9: two consecutive bind failures; the error logged at
offset 1 is followed by an immediate restart at offset 2. -/
theorem supervisor_restart_witness :
    (start_server Device.cuda [layer0] loads0 dumps0
        [IterOutcome.bindFail, IterOutcome.bindFail])[2]? =
      some SEv.restarted :=
  ((supervisor_restart Device.cuda [layer0] loads0 dumps0
      [IterOutcome.bindFail, IterOutcome.bindFail] 1).2.1 (by decide)).1

end LlamaSplit
